import Mathlib

/-!
Verification of the coachpy recorder library.

The repository stores numeric time series per variable name and renders them
through a charting collaborator.  We embed the two Simulation classes of the
package (the recorder in simulation.py and the legacy class defined directly
in the package root module) as pure Lean functions over explicit state, with
Python dicts rendered as insertion-ordered association lists and Python floats
rendered as rationals plus a distinguished not-a-number sentinel.
-/

set_option autoImplicit false

/-- A recorded sample: a Python float value, with not-a-number kept apart. -/
inductive Sample where
  | nan
  | val (x : ℚ)
deriving DecidableEq, Repr

/-- A Python value as passed to a recording call.  A string carries the result
a float conversion of it would produce, so that the builtin float() can be
modelled without implementing literal parsing. -/
inductive PyVal where
  | int (n : Int)
  | float (q : ℚ)
  | str (s : String) (parsedFloat : Option ℚ)
  | noneV
deriving DecidableEq, Repr

/-- isinstance(value, (int, float)) -/
def PyVal.isNumeric : PyVal → Bool
  | .int _ => true
  | .float _ => true
  | _ => false

/-- str(type(value)) for the error message of the recording call. -/
def PyVal.typeName : PyVal → String
  | .int _ => "<class \x27int\x27>"
  | .float _ => "<class \x27float\x27>"
  | .str _ _ => "<class \x27str\x27>"
  | .noneV => "<class \x27NoneType\x27>"

/-- float(value) for a value that passed the isinstance check; the catch-all
branch is unreachable in the guarded code path. -/
def PyVal.toSample : PyVal → Sample
  | .int n => .val (n : ℚ)
  | .float q => .val q
  | _ => .nan

/-- Python exceptions raised by the library: TypeError carries the InvalidValue
condition of the spec, ValueError carries NotFound, EmptyData and
UnknownVariable, distinguished by their messages. -/
inductive SimError where
  | typeError (msg : String)
  | valueError (msg : String)
deriving DecidableEq, Repr

/-- The builtin float() applied to an arbitrary value, as used by the legacy
track method in the package root module. -/
def pyFloat : PyVal → Except SimError ℚ
  | .int n => .ok (n : ℚ)
  | .float q => .ok q
  | .str s p =>
    match p with
    | some q => .ok q
    | none => .error (.valueError ("could not convert string to float: \x27" ++ s ++ "\x27"))
  | .noneV => .error (.typeError "float() argument must be a string or a real number, not \x27NoneType\x27")

/-- Metadata entry for one variable: a Python dict that may hold a label
and a unit. -/
structure MetaEntry where
  label : Option String := none
  unit : Option String := none
deriving DecidableEq, Repr

instance {ε α : Type} [DecidableEq ε] [DecidableEq α] : DecidableEq (Except ε α) := fun x y =>
  match x, y with
  | .error a, .error b =>
    if h : a = b then isTrue (congrArg Except.error h)
    else isFalse (fun hh => h (Except.error.inj hh))
  | .error _, .ok _ => isFalse (fun hh => Except.noConfusion hh)
  | .ok _, .error _ => isFalse (fun hh => Except.noConfusion hh)
  | .ok a, .ok b =>
    if h : a = b then isTrue (congrArg Except.ok h)
    else isFalse (fun hh => h (Except.ok.inj hh))

/-! ### Insertion-ordered association lists (Python dicts) -/

/-- Lookup of the first entry with the given key. -/
def lookupA {α : Type} : List (String × α) → String → Option α
  | [], _ => none
  | (k, v) :: t, key => if k = key then some v else lookupA t key

/-- Rewrite every value with a function of its key, keeping the key order:
the shape of an in-place dict value update. -/
def mapValsA {α : Type} (g : String → α → α) (h : List (String × α)) : List (String × α) :=
  h.map (fun e => (e.1, g e.1 e.2))

/-- The keys of an association list, in insertion order. -/
def keysOf {α : Type} (h : List (String × α)) : List String :=
  h.map Prod.fst

theorem lookupA_mapValsA {α : Type} (g : String → α → α) (h : List (String × α)) (key : String) :
    lookupA (mapValsA g h) key = (lookupA h key).map (g key) := by
  induction h with
  | nil => rfl
  | cons e t ih =>
    obtain ⟨k, v⟩ := e
    by_cases hk : k = key
    · subst hk; simp [mapValsA, lookupA]
    · simp [mapValsA, lookupA, hk] at ih ⊢; exact ih

theorem keysOf_mapValsA {α : Type} (g : String → α → α) (h : List (String × α)) :
    keysOf (mapValsA g h) = keysOf h := by
  simp [keysOf, mapValsA]

theorem lookupA_append {α : Type} (h₁ h₂ : List (String × α)) (key : String) :
    lookupA (h₁ ++ h₂) key =
      match lookupA h₁ key with
      | some v => some v
      | none => lookupA h₂ key := by
  induction h₁ with
  | nil => simp [lookupA]
  | cons e t ih =>
    obtain ⟨k, v⟩ := e
    by_cases hk : k = key
    · simp [lookupA, hk]
    · simp [lookupA, hk, ih]

theorem lookupA_eq_none_iff {α : Type} (h : List (String × α)) (key : String) :
    lookupA h key = none ↔ key ∉ keysOf h := by
  induction h with
  | nil => simp [lookupA, keysOf]
  | cons e t ih =>
    obtain ⟨k, v⟩ := e
    by_cases hk : k = key
    · subst hk; simp [lookupA, keysOf]
    · simp [lookupA, hk, keysOf] at ih ⊢
      exact ⟨fun hn => ⟨fun he => hk he.symm, ih.mp hn⟩, fun hc => ih.mpr hc.2⟩

theorem lookupA_of_mem_nodup {α : Type} : ∀ (h : List (String × α)) (k : String) (v : α),
    (keysOf h).Nodup → (k, v) ∈ h → lookupA h k = some v := by
  intro h
  induction h with
  | nil => intro k v _ hmem; simp at hmem
  | cons e t ih =>
    intro k v hnd hmem
    obtain ⟨k', v'⟩ := e
    have hnd' : k' ∉ keysOf t ∧ (keysOf t).Nodup := by simpa [keysOf] using hnd
    rcases List.mem_cons.mp hmem with he | ht
    · injection he with h1 h2
      subst h1; subst h2
      simp [lookupA]
    · have hk : ¬ (k' = k) := by
        intro hkk; subst hkk
        exact hnd'.1 (List.mem_map.mpr ⟨(k', v), ht, rfl⟩)
      rw [lookupA, if_neg hk]
      exact ih k v hnd'.2 ht

/-! Simulation (simulation.py): the Recorder of the spec. -/

abbrev Hist := List (String × List Sample)
abbrev Call := List (String × PyVal)

structure Simulation where
  name : String
  history : Hist
  metadata : List (String × MetaEntry)
  current_step : Nat
deriving DecidableEq, Repr

/-- Simulation.__init__ -/
def Simulation.init (name : String) : Simulation :=
  { name := name
    history := [("step", [])]
    metadata := [("step", { label := some "Stappen", unit := some "" })]
    current_step := 0 }

/-- self._history[name].append(x) -/
def histAppend (h : Hist) (k : String) (x : Sample) : Hist :=
  mapValsA (fun k' l => if k' = k then l ++ [x] else l) h

/-- The final alignment loop of track: every series other than step that is
shorter than the current step counter receives one not-a-number filler. -/
def padHist (n : Nat) (h : Hist) : Hist :=
  mapValsA (fun k l => if k = "step" then l else if l.length < n then l ++ [Sample.nan] else l) h

/-- The per-variable loop of Simulation.track, threading the mutated state;
an error carries the state as already mutated when the exception is raised. -/
def Simulation.trackVars : Simulation → Call → Except (SimError × Simulation) Simulation
  | s, [] => .ok s
  | s, (name, value) :: rest =>
    if value.isNumeric then
      let h := if (lookupA s.history name).isSome then s.history
               else s.history ++ [(name, List.replicate (s.current_step - 1) Sample.nan)]
      Simulation.trackVars { s with history := histAppend h name value.toSample } rest
    else
      .error (.typeError (name ++ " moet een getal zijn, niet " ++ value.typeName), s)

/-- Simulation.track -/
def Simulation.track (s : Simulation) (vars : Call) : Except (SimError × Simulation) Simulation :=
  let s1 : Simulation := { s with current_step := s.current_step + 1 }
  let s2 : Simulation := { s1 with history := histAppend s1.history "step" (Sample.val (s1.current_step : ℚ)) }
  match s2.trackVars vars with
  | .error e => .error e
  | .ok s3 => .ok { s3 with history := padHist s3.current_step s3.history }

/-- Simulation.set_metadata -/
def Simulation.set_metadata (s : Simulation) (vname unit label : String) : Simulation :=
  let md0 := if (lookupA s.metadata vname).isSome then s.metadata
             else s.metadata ++ [(vname, { label := none, unit := none })]
  let md1 := if unit ≠ "" then mapValsA (fun k m => if k = vname then { m with unit := some unit } else m) md0 else md0
  let md2 := if label ≠ "" then mapValsA (fun k m => if k = vname then { m with label := some label } else m) md1 else md1
  { s with metadata := md2 }

/-- Simulation._get_label -/
def Simulation.get_label (s : Simulation) (vname : String) : String :=
  match lookupA s.metadata vname with
  | none => vname
  | some meta =>
    let label := meta.label.getD vname
    let unit := meta.unit.getD ""
    if unit ≠ "" then label ++ " (" ++ unit ++ ")" else label

/-- Simulation.get_data: the source returns a copy of the stored list, which
under value semantics is the stored list itself. -/
def Simulation.get_data (s : Simulation) (vname : String) : Except SimError (List Sample) :=
  match lookupA s.history vname with
  | none => .error (.valueError ("Variabele \x27" ++ vname ++ "\x27 niet gevonden"))
  | some l => .ok l

/-- Simulation.reset -/
def Simulation.reset (s : Simulation) : Simulation :=
  { s with
    history := [("step", [])]
    metadata := [("step", { label := some "Stappen", unit := some "" })]
    current_step := 0 }

/-! Simulation.plot: the render operation.  Its observable effect is the
sequence of calls handed to the charting collaborator, which we record as a
trace; an error carries the trace of collaborator calls already made. -/

/-- One primitive operation of the charting collaborator.  The series call
additionally records which history key supplied the y data, so that theorems
can speak about which series were handed over. -/
inductive PlotCall where
  | figure (figsize : ℚ × ℚ)
  | series (yname : String) (xdata ydata : List Sample) (style lab : String)
      (kwargs : List (String × String))
  | xlabelC (t : String)
  | ylabelC (t : String)
  | titleC (t : String)
  | legend
  | gridC (alpha : ℚ)
  | tightLayout
  | showC (block : Bool)
deriving DecidableEq, Repr

/-- The history key whose data a collaborator call renders, when it is a
series call. -/
def PlotCall.ynameOf : PlotCall → Option String
  | .series y _ _ _ _ _ => some y
  | _ => none

/-- Python: x if x else d, for an optional string argument (None and the
empty string both fall back to the default). -/
def pyStrOr (o : Option String) (d : String) : String :=
  match o with
  | none => d
  | some t => if t = "" then d else t

/-- against if against else step: the x axis selection of plot. -/
def xAxisOf (against : Option String) : String :=
  match against with
  | none => "step"
  | some a => if a = "" then "step" else a

/-- The per-variable loop of Simulation.plot, accumulating collaborator
calls; on an unknown variable the calls already made are kept. -/
def plotLoop (s : Simulation) (xdata : List Sample) (style : String)
    (kwargs : List (String × String)) :
    List String → List PlotCall → Except (SimError × List PlotCall) (List PlotCall)
  | [], tr => .ok tr
  | v :: rest, tr =>
    match lookupA s.history v with
    | none => .error (.valueError ("Variabele \x27" ++ v ++ "\x27 niet gevonden in data"), tr)
    | some ydata =>
      plotLoop s xdata style kwargs rest
        (tr ++ [PlotCall.series v xdata ydata style (s.get_label v) kwargs])

/-- Simulation.plot -/
def Simulation.plot (s : Simulation) (varNames : List String)
    (against ti xl yl : Option String) (grid : Bool) (figsize : ℚ × ℚ)
    (style : String) (block : Bool) (kwargs : List (String × String)) :
    Except (SimError × List PlotCall) (List PlotCall) :=
  if s.history.isEmpty
     || (match lookupA s.history "step" with | none => true | some l => l.isEmpty) then
    .error (.valueError "Geen data om te plotten. Gebruik eerst sim.track()", [])
  else
    let x_axis := xAxisOf against
    match lookupA s.history x_axis with
    | none => .error (.valueError ("Variabele \x27" ++ x_axis ++ "\x27 niet gevonden in data"), [])
    | some xdata =>
      let vars := if varNames.isEmpty then (keysOf s.history).filter (fun k => k ≠ x_axis)
                  else varNames
      match plotLoop s xdata style kwargs vars [PlotCall.figure figsize] with
      | .error e => .error e
      | .ok tr0 =>
        let tr1 := tr0 ++ [PlotCall.xlabelC (pyStrOr xl (s.get_label x_axis))]
        let tr2 := tr1 ++
          (match yl with
           | some y =>
             if y ≠ "" then [PlotCall.ylabelC y]
             else if vars.length = 1 then [PlotCall.ylabelC (s.get_label vars.headI)] else []
           | none =>
             if vars.length = 1 then [PlotCall.ylabelC (s.get_label vars.headI)] else [])
        let tr3 := tr2 ++ [PlotCall.titleC (pyStrOr ti s.name)]
        let tr4 := tr3 ++ (if vars.length > 1 then [PlotCall.legend] else [])
        let tr5 := tr4 ++ (if grid then [PlotCall.gridC (3 / 10)] else [])
        .ok (tr5 ++ [PlotCall.tightLayout, PlotCall.showC block])

/-! The legacy Simulation class written directly in the package root module.
It predates the recorder of simulation.py: no step counter, no step series,
no not-a-number alignment, and reset only clears the history. -/

namespace CoachpyInit

structure Simulation where
  name : String
  history : Hist
  metadata : List (String × MetaEntry)
deriving DecidableEq, Repr

/-- Legacy Simulation.__init__ -/
def Simulation.init (name : String) : Simulation :=
  { name := name, history := [], metadata := [] }

/-- Legacy Simulation.track: appends float(value) per supplied variable,
creating an empty series first for a new name.  The builtin float() can
raise, in which case the entry created for a new name stays behind. -/
def Simulation.track : Simulation → Call → Except (SimError × Simulation) Simulation
  | s, [] => .ok s
  | s, (name, value) :: rest =>
    let h := if (lookupA s.history name).isSome then s.history else s.history ++ [(name, [])]
    match pyFloat value with
    | .error e => .error (e, { s with history := h })
    | .ok q => Simulation.track { s with history := histAppend h name (Sample.val q) } rest

/-- Legacy Simulation.set_metadata (same code as the recorder version). -/
def Simulation.set_metadata (s : Simulation) (vname unit label : String) : Simulation :=
  let md0 := if (lookupA s.metadata vname).isSome then s.metadata
             else s.metadata ++ [(vname, { label := none, unit := none })]
  let md1 := if unit ≠ "" then mapValsA (fun k m => if k = vname then { m with unit := some unit } else m) md0 else md0
  let md2 := if label ≠ "" then mapValsA (fun k m => if k = vname then { m with label := some label } else m) md1 else md1
  { s with metadata := md2 }

/-- Legacy Simulation.get_data (same code as the recorder version). -/
def Simulation.get_data (s : Simulation) (vname : String) : Except SimError (List Sample) :=
  match lookupA s.history vname with
  | none => .error (.valueError ("Variabele \x27" ++ vname ++ "\x27 niet gevonden"))
  | some l => .ok l

/-- Legacy Simulation.reset: self history clear only, metadata kept. -/
def Simulation.reset (s : Simulation) : Simulation :=
  { s with history := [] }

/-- The process-wide default instance of the package root module. -/
def globalSim : Simulation := Simulation.init "Simulatie"

/-- Module-level convenience function track of the package root module,
rendered with the global instance passed as explicit state. -/
def track (g : Simulation) (vars : Call) : Except (SimError × Simulation) Simulation :=
  Simulation.track g vars

/-- Module-level convenience function set_metadata of the package root module. -/
def set_metadata (g : Simulation) (vname unit label : String) : Simulation :=
  Simulation.set_metadata g vname unit label

/-- Module-level convenience function reset of the package root module. -/
def reset (g : Simulation) : Simulation :=
  Simulation.reset g

end CoachpyInit

/-! The convenience-function layer of core.py, which forwards to a default
instance of the recorder imported from simulation.py. -/

namespace CoachpyCore

/-- The process-wide default instance of core.py. -/
def globalSim : Simulation := Simulation.init "Simulatie"

/-- core.py track: forwards to the default recorder instance. -/
def track (g : Simulation) (vars : Call) : Except (SimError × Simulation) Simulation :=
  Simulation.track g vars

/-- core.py plot: forwards to the default recorder instance. -/
def plot (g : Simulation) (varNames : List String) (against ti xl yl : Option String)
    (grid : Bool) (figsize : ℚ × ℚ) (style : String) (block : Bool)
    (kwargs : List (String × String)) : Except (SimError × List PlotCall) (List PlotCall) :=
  Simulation.plot g varNames against ti xl yl grid figsize style block kwargs

/-- core.py set_metadata: forwards to the default recorder instance. -/
def set_metadata (g : Simulation) (vname unit label : String) : Simulation :=
  Simulation.set_metadata g vname unit label

/-- core.py reset: forwards to the default recorder instance (the module
defines it twice with the same body; the second definition wins). -/
def reset (g : Simulation) : Simulation :=
  Simulation.reset g

end CoachpyCore

/-! ### Specification-side descriptions of a run of recording calls -/

/-- The sample a recording call contributes to the series of a variable:
the float of the supplied value when the variable is supplied, a
not-a-number filler otherwise.  Written from the spec sentences on
back-filling and omission fillers. -/
def sampleAt (c : Call) (v : String) : Sample :=
  match lookupA c v with
  | some pv => pv.toSample
  | none => Sample.nan

/-- The full series the spec predicts for a variable over a run of calls. -/
def seriesOf (calls : List Call) (v : String) : List Sample :=
  calls.map (fun c => sampleAt c v)

/-- The contents of the step series over a run of calls starting after n
earlier calls: each call appends the new counter value, and additionally the
supplied value when the call itself supplies the reserved name step. -/
def stepSeriesFrom : Nat → List Call → List Sample
  | _, [] => []
  | n, c :: rest =>
    (Sample.val ((n + 1 : Nat) : ℚ) ::
      (match lookupA c "step" with
       | some pv => [pv.toSample]
       | none => [])) ++ stepSeriesFrom (n + 1) rest

/-- The contents of the step series over a full run of calls. -/
def stepSeriesOf (calls : List Call) : List Sample :=
  stepSeriesFrom 0 calls

/-- Whether a variable is supplied by at least one call of a run. -/
def suppliedIn (calls : List Call) (v : String) : Bool :=
  calls.any (fun c => (lookupA c v).isSome)

/-- A recording call binds each variable name at most once, as Python
keyword arguments do. -/
def WfCall (c : Call) : Prop := (keysOf c).Nodup

/-- A run of recording calls, stopping with none as soon as one raises. -/
def runTracks : Simulation → List Call → Option Simulation
  | s, [] => some s
  | s, c :: rest =>
    match s.track c with
    | .ok s2 => runTracks s2 rest
    | .error _ => none

/-- The reachable-state invariant tying a recorder state to the run of
completed recording calls that produced it. -/
def TrackInv (calls : List Call) (s : Simulation) : Prop :=
  s.current_step = calls.length ∧
  (keysOf s.history).Nodup ∧
  lookupA s.history "step" = some (stepSeriesOf calls) ∧
  ∀ v, v ≠ "step" →
    (suppliedIn calls v = true → lookupA s.history v = some (seriesOf calls v)) ∧
    (suppliedIn calls v = false → lookupA s.history v = none)

/-! ### Lookup lemmas for the history operations -/

theorem lookupA_histAppend (h : Hist) (k key : String) (x : Sample) :
    lookupA (histAppend h k x) key
      = (lookupA h key).map (fun l => if key = k then l ++ [x] else l) := by
  simp [histAppend, lookupA_mapValsA]

theorem lookupA_histAppend_ne (h : Hist) (k key : String) (x : Sample) (hne : key ≠ k) :
    lookupA (histAppend h k x) key = lookupA h key := by
  rw [lookupA_histAppend]
  cases lookupA h key <;> simp [hne]

theorem lookupA_padHist (n : Nat) (h : Hist) (key : String) :
    lookupA (padHist n h) key
      = (lookupA h key).map
          (fun l => if key = "step" then l else if l.length < n then l ++ [Sample.nan] else l) := by
  simp [padHist, lookupA_mapValsA]

theorem keysOf_histAppend (h : Hist) (k : String) (x : Sample) :
    keysOf (histAppend h k x) = keysOf h :=
  keysOf_mapValsA _ h

theorem keysOf_padHist (n : Nat) (h : Hist) :
    keysOf (padHist n h) = keysOf h :=
  keysOf_mapValsA _ h

theorem seriesOf_append_one (calls : List Call) (c : Call) (v : String) :
    seriesOf (calls ++ [c]) v = seriesOf calls v ++ [sampleAt c v] := by
  simp [seriesOf]

theorem seriesOf_length (calls : List Call) (v : String) :
    (seriesOf calls v).length = calls.length := by
  simp [seriesOf]

theorem seriesOf_not_supplied : ∀ (calls : List Call) (v : String),
    suppliedIn calls v = false → seriesOf calls v = List.replicate calls.length Sample.nan := by
  intro calls
  induction calls with
  | nil => intro v _; rfl
  | cons c rest ih =>
    intro v hs
    simp only [suppliedIn, List.any_cons, Bool.or_eq_false_iff] at hs
    have h1 : lookupA c v = none := by
      cases hl : lookupA c v
      · rfl
      · rw [hl] at hs; simp at hs
    have h2 := ih v hs.2
    simp only [seriesOf] at h2
    simp only [seriesOf, List.map_cons, List.length_cons, List.replicate_succ, h2]
    simp [sampleAt, h1]

theorem suppliedIn_append_one (calls : List Call) (c : Call) (v : String) :
    suppliedIn (calls ++ [c]) v = (suppliedIn calls v || (lookupA c v).isSome) := by
  simp [suppliedIn]

theorem stepSeriesFrom_append : ∀ (cs : List Call) (n : Nat) (c : Call),
    stepSeriesFrom n (cs ++ [c]) = stepSeriesFrom n cs ++ stepSeriesFrom (n + cs.length) [c] := by
  intro cs
  induction cs with
  | nil => intro n c; simp [stepSeriesFrom]
  | cons c0 rest ih =>
    intro n c
    have harith : n + 1 + rest.length = n + (rest.length + 1) := by omega
    calc stepSeriesFrom n ((c0 :: rest) ++ [c])
        = (Sample.val ((n + 1 : Nat) : ℚ) ::
            (match lookupA c0 "step" with
             | some pv => [pv.toSample]
             | none => [])) ++ stepSeriesFrom (n + 1) (rest ++ [c]) := rfl
      _ = (Sample.val ((n + 1 : Nat) : ℚ) ::
            (match lookupA c0 "step" with
             | some pv => [pv.toSample]
             | none => [])) ++ (stepSeriesFrom (n + 1) rest
              ++ stepSeriesFrom (n + 1 + rest.length) [c]) := by rw [ih]
      _ = _ := by rw [harith]; simp [stepSeriesFrom, List.append_assoc]

theorem stepSeriesFrom_length : ∀ (cs : List Call) (n : Nat),
    (∀ c ∈ cs, lookupA c "step" = none) → (stepSeriesFrom n cs).length = cs.length := by
  intro cs
  induction cs with
  | nil => intro n _; rfl
  | cons c rest ih =>
    intro n hn
    have hc : lookupA c "step" = none := hn c (by simp)
    have ih2 := ih (n + 1) (fun c' hc' => hn c' (by simp [hc']))
    simp [stepSeriesFrom, hc, ih2]

/-! ### Characterization of the per-variable loop of track -/

/-- The state after the loop body of track has processed one numeric
variable: the series is created with a not-a-number back-fill when the name
is new, then the float of the value is appended. -/
def afterVar (s : Simulation) (name : String) (value : PyVal) : Simulation :=
  let h := if (lookupA s.history name).isSome then s.history
           else s.history ++ [(name, List.replicate (s.current_step - 1) Sample.nan)]
  { s with history := histAppend h name value.toSample }

theorem trackVars_cons_numeric (s : Simulation) (name : String) (value : PyVal) (rest : Call)
    (hnum : value.isNumeric = true) :
    Simulation.trackVars s ((name, value) :: rest)
      = Simulation.trackVars (afterVar s name value) rest := by
  simp [Simulation.trackVars, afterVar, hnum]

theorem trackVars_cons_nonnumeric (s : Simulation) (name : String) (value : PyVal) (rest : Call)
    (hnum : value.isNumeric = false) :
    Simulation.trackVars s ((name, value) :: rest)
      = .error (.typeError (name ++ " moet een getal zijn, niet " ++ value.typeName), s) := by
  simp [Simulation.trackVars, hnum]

theorem afterVar_current_step (s : Simulation) (name : String) (value : PyVal) :
    (afterVar s name value).current_step = s.current_step := rfl

theorem afterVar_name (s : Simulation) (name : String) (value : PyVal) :
    (afterVar s name value).name = s.name := rfl

theorem afterVar_metadata (s : Simulation) (name : String) (value : PyVal) :
    (afterVar s name value).metadata = s.metadata := rfl

theorem lookupA_afterVar_self (s : Simulation) (name : String) (value : PyVal) :
    lookupA (afterVar s name value).history name
      = some (((lookupA s.history name).getD
          (List.replicate (s.current_step - 1) Sample.nan)) ++ [value.toSample]) := by
  show lookupA (histAppend _ name value.toSample) name = _
  rw [lookupA_histAppend]
  cases hl : lookupA s.history name with
  | some l => simp [hl]
  | none => simp [hl, lookupA_append, lookupA]

theorem lookupA_afterVar_other (s : Simulation) (name key : String) (value : PyVal)
    (hne : key ≠ name) :
    lookupA (afterVar s name value).history key = lookupA s.history key := by
  show lookupA (histAppend _ name value.toSample) key = _
  rw [lookupA_histAppend_ne _ _ _ _ hne]
  cases hl : lookupA s.history name with
  | some l => simp [hl]
  | none =>
    simp only [hl, Option.isSome_none, Bool.false_eq_true, if_false]
    rw [lookupA_append]
    cases lookupA s.history key with
    | some v => rfl
    | none => simp [lookupA, Ne.symm hne]

theorem keysOf_afterVar (s : Simulation) (name : String) (value : PyVal) :
    keysOf (afterVar s name value).history
      = if (lookupA s.history name).isSome then keysOf s.history
        else keysOf s.history ++ [name] := by
  show keysOf (histAppend _ name value.toSample) = _
  rw [keysOf_histAppend]
  cases hl : lookupA s.history name with
  | some l => simp [hl]
  | none => simp [hl, keysOf]

theorem trackVars_ok_char : ∀ (c : Call) (s s2 : Simulation),
    (keysOf c).Nodup → Simulation.trackVars s c = .ok s2 →
    s2.current_step = s.current_step ∧ s2.name = s.name ∧ s2.metadata = s.metadata ∧
    ∀ key, lookupA s2.history key =
      match lookupA c key with
      | some pv => some (((lookupA s.history key).getD
          (List.replicate (s.current_step - 1) Sample.nan)) ++ [pv.toSample])
      | none => lookupA s.history key := by
  intro c
  induction c with
  | nil =>
    intro s s2 _ h
    simp only [Simulation.trackVars] at h
    injection h with h'
    subst h'
    exact ⟨rfl, rfl, rfl, fun key => by simp [lookupA]⟩
  | cons e rest ih =>
    intro s s2 hnd h
    obtain ⟨name, value⟩ := e
    have hnd' : name ∉ keysOf rest ∧ (keysOf rest).Nodup := by simpa [keysOf] using hnd
    by_cases hnum : value.isNumeric = true
    · rw [trackVars_cons_numeric s name value rest hnum] at h
      obtain ⟨hcs, hname, hmeta, hlook⟩ := ih (afterVar s name value) s2 hnd'.2 h
      rw [afterVar_current_step] at hcs
      rw [afterVar_name] at hname
      rw [afterVar_metadata] at hmeta
      refine ⟨hcs, hname, hmeta, ?_⟩
      intro key
      by_cases hkey : key = name
      · subst hkey
        have hrest : lookupA rest key = none :=
          (lookupA_eq_none_iff rest key).mpr hnd'.1
        rw [hlook key, hrest]
        simp only [lookupA, if_pos rfl]
        exact lookupA_afterVar_self s key value
      · have hcons : lookupA ((name, value) :: rest) key = lookupA rest key := by
          simp [lookupA, Ne.symm hkey]
        rw [hlook key, hcons, lookupA_afterVar_other s name key value hkey,
            afterVar_current_step]
    · have hnum' : value.isNumeric = false := by
        cases hb : value.isNumeric
        · rfl
        · exact absurd hb hnum
      rw [trackVars_cons_nonnumeric s name value rest hnum'] at h
      exact absurd h (by simp)

theorem trackVars_nodup : ∀ (c : Call) (s s2 : Simulation),
    (keysOf s.history).Nodup → Simulation.trackVars s c = .ok s2 →
    (keysOf s2.history).Nodup := by
  intro c
  induction c with
  | nil =>
    intro s s2 hnd h
    simp only [Simulation.trackVars] at h
    injection h with h'
    subst h'
    exact hnd
  | cons e rest ih =>
    intro s s2 hnd h
    obtain ⟨name, value⟩ := e
    by_cases hnum : value.isNumeric = true
    · rw [trackVars_cons_numeric s name value rest hnum] at h
      refine ih (afterVar s name value) s2 ?_ h
      rw [keysOf_afterVar]
      cases hl : lookupA s.history name with
      | some l => simpa using hnd
      | none =>
        have hnotin : name ∉ keysOf s.history := by
          rw [← lookupA_eq_none_iff]; exact hl
        simp only [Option.isSome_none, Bool.false_eq_true, if_false]
        rw [List.nodup_append]
        exact ⟨hnd, List.nodup_singleton name, by simpa using hnotin⟩
    · have hnum' : value.isNumeric = false := by
        cases hb : value.isNumeric
        · rfl
        · exact absurd hb hnum
      rw [trackVars_cons_nonnumeric s name value rest hnum'] at h
      exact absurd h (by simp)

theorem trackVars_ok_exists_iff : ∀ (c : Call) (s : Simulation),
    (∃ s2, Simulation.trackVars s c = .ok s2) ↔ (∀ p ∈ c, p.2.isNumeric = true) := by
  intro c
  induction c with
  | nil => intro s; simp [Simulation.trackVars]
  | cons e rest ih =>
    intro s
    obtain ⟨name, value⟩ := e
    by_cases hnum : value.isNumeric = true
    · rw [trackVars_cons_numeric s name value rest hnum, ih (afterVar s name value)]
      constructor
      · intro hall p hp
        rcases List.mem_cons.mp hp with he | hr
        · rw [he]; exact hnum
        · exact hall p hr
      · intro hall p hp
        exact hall p (List.mem_cons_of_mem _ hp)
    · have hnum' : value.isNumeric = false := by
        cases hb : value.isNumeric
        · rfl
        · exact absurd hb hnum
      rw [trackVars_cons_nonnumeric s name value rest hnum']
      constructor
      · intro ⟨s2, hs2⟩
        exact absurd hs2 (by simp)
      · intro hall
        exact absurd (hall (name, value) (by simp)) (by simp [hnum'])

theorem trackVars_error_msg : ∀ (pre : Call) (s : Simulation) (n : String) (v : PyVal)
    (post : Call), (∀ p ∈ pre, p.2.isNumeric = true) → v.isNumeric = false →
    ∃ s2, Simulation.trackVars s (pre ++ (n, v) :: post)
        = .error (.typeError (n ++ " moet een getal zijn, niet " ++ v.typeName), s2) := by
  intro pre
  induction pre with
  | nil =>
    intro s n v post _ hv
    exact ⟨s, by rw [List.nil_append, trackVars_cons_nonnumeric s n v post hv]⟩
  | cons e rest ih =>
    intro s n v post hall hv
    obtain ⟨name, value⟩ := e
    have hnum : value.isNumeric = true := hall (name, value) (by simp)
    rw [List.cons_append, trackVars_cons_numeric s name value _ hnum]
    exact ih (afterVar s name value) n v post (fun p hp => hall p (by simp [hp])) hv

theorem trackVars_error_char : ∀ (pre : Call) (s : Simulation) (n : String) (v : PyVal)
    (post : Call), (keysOf pre).Nodup → (∀ p ∈ pre, p.2.isNumeric = true) →
    v.isNumeric = false →
    ∃ s2, Simulation.trackVars s (pre ++ (n, v) :: post)
        = .error (.typeError (n ++ " moet een getal zijn, niet " ++ v.typeName), s2) ∧
      s2.current_step = s.current_step ∧ s2.name = s.name ∧ s2.metadata = s.metadata ∧
      ∀ key, lookupA s2.history key =
        match lookupA pre key with
        | some pv => some (((lookupA s.history key).getD
            (List.replicate (s.current_step - 1) Sample.nan)) ++ [pv.toSample])
        | none => lookupA s.history key := by
  intro pre
  induction pre with
  | nil =>
    intro s n v post _ _ hv
    refine ⟨s, ?_, rfl, rfl, rfl, fun key => by simp [lookupA]⟩
    rw [List.nil_append, trackVars_cons_nonnumeric s n v post hv]
  | cons e rest ih =>
    intro s n v post hnd hall hv
    obtain ⟨name, value⟩ := e
    have hnd' : name ∉ keysOf rest ∧ (keysOf rest).Nodup := by simpa [keysOf] using hnd
    have hnum : value.isNumeric = true := hall (name, value) (by simp)
    obtain ⟨s2, herr, hcs, hname, hmeta, hlook⟩ :=
      ih (afterVar s name value) n v post hnd'.2 (fun p hp => hall p (by simp [hp])) hv
    refine ⟨s2, ?_, ?_, ?_, ?_, ?_⟩
    · rw [List.cons_append, trackVars_cons_numeric s name value _ hnum]
      exact herr
    · rw [hcs, afterVar_current_step]
    · rw [hname, afterVar_name]
    · rw [hmeta, afterVar_metadata]
    · intro key
      by_cases hkey : key = name
      · subst hkey
        have hrest : lookupA rest key = none :=
          (lookupA_eq_none_iff rest key).mpr hnd'.1
        rw [hlook key, hrest]
        simp only [lookupA, if_pos rfl]
        exact lookupA_afterVar_self s key value
      · have hcons : lookupA ((name, value) :: rest) key = lookupA rest key := by
          simp [lookupA, Ne.symm hkey]
        rw [hlook key, hcons, lookupA_afterVar_other s name key value hkey,
            afterVar_current_step]

/-! ### Characterization of track itself -/

/-- The state right after track has incremented the counter and appended its
new value to the step series, before the variable loop runs. -/
def stepState (s : Simulation) : Simulation :=
  let s1 : Simulation := { s with current_step := s.current_step + 1 }
  { s1 with history := histAppend s1.history "step" (Sample.val (s1.current_step : ℚ)) }

theorem track_eq (s : Simulation) (vars : Call) :
    Simulation.track s vars
      = match Simulation.trackVars (stepState s) vars with
        | .error e => .error e
        | .ok s3 => .ok { s3 with history := padHist s3.current_step s3.history } := rfl

theorem stepState_current_step (s : Simulation) :
    (stepState s).current_step = s.current_step + 1 := rfl

theorem lookupA_stepState_step (s : Simulation) :
    lookupA (stepState s).history "step"
      = (lookupA s.history "step").map
          (fun l => l ++ [Sample.val ((s.current_step + 1 : Nat) : ℚ)]) := by
  show lookupA (histAppend s.history "step" _) "step" = _
  rw [lookupA_histAppend]
  cases lookupA s.history "step" <;> simp

theorem lookupA_stepState_other (s : Simulation) (key : String) (hne : key ≠ "step") :
    lookupA (stepState s).history key = lookupA s.history key := by
  show lookupA (histAppend s.history "step" _) key = _
  exact lookupA_histAppend_ne _ _ _ _ hne

theorem keysOf_stepState (s : Simulation) :
    keysOf (stepState s).history = keysOf s.history := by
  show keysOf (histAppend s.history "step" _) = _
  exact keysOf_histAppend _ _ _

/-- Extracts the raised error of a recording call, when there is one. -/
def errMsgOf : Except (SimError × Simulation) Simulation → Option SimError
  | .error (e, _) => some e
  | .ok _ => none

theorem track_error_iff (s : Simulation) (vars : Call) :
    (∃ e, Simulation.track s vars = .error e) ↔ ∃ p ∈ vars, p.2.isNumeric = false := by
  rw [track_eq]
  cases heq : Simulation.trackVars (stepState s) vars with
  | ok s3 =>
    have hall := (trackVars_ok_exists_iff vars (stepState s)).mp ⟨s3, heq⟩
    simp only [heq]
    constructor
    · intro ⟨e, he⟩
      exact absurd he (by simp)
    · intro ⟨p, hp, hnum⟩
      rw [hall p hp] at hnum
      exact absurd hnum (by simp)
  | error e2 =>
    simp only [heq]
    constructor
    · intro _
      by_contra hno
      push_neg at hno
      have hall : ∀ p ∈ vars, p.2.isNumeric = true := by
        intro p hp
        cases hb : p.2.isNumeric
        · exact absurd hb (hno p hp)
        · rfl
      obtain ⟨s2, hs2⟩ := (trackVars_ok_exists_iff vars (stepState s)).mpr hall
      rw [hs2] at heq
      exact Except.noConfusion heq
    · intro _
      exact ⟨e2, rfl⟩

theorem track_ok_inv (calls : List Call) (c : Call) (s s4 : Simulation)
    (hinv : TrackInv calls s) (hnd : (keysOf c).Nodup)
    (h : Simulation.track s c = .ok s4) : TrackInv (calls ++ [c]) s4 := by
  obtain ⟨hstep, hnodup, hstepser, hvars⟩ := hinv
  rw [track_eq] at h
  cases heq : Simulation.trackVars (stepState s) c with
  | error e => rw [heq] at h; exact absurd h (by simp)
  | ok s3 =>
    rw [heq] at h
    injection h with h'
    subst h'
    obtain ⟨hcs, hname, hmeta, hlook⟩ := trackVars_ok_char c (stepState s) s3 hnd heq
    rw [stepState_current_step] at hcs
    have hsub : s.current_step + 1 - 1 = s.current_step := by omega
    refine ⟨?_, ?_, ?_, ?_⟩
    · show s3.current_step = (calls ++ [c]).length
      simp [hcs, hstep]
    · show (keysOf (padHist s3.current_step s3.history)).Nodup
      rw [keysOf_padHist]
      exact trackVars_nodup c (stepState s) s3 (by rw [keysOf_stepState]; exact hnodup) heq
    · show lookupA (padHist s3.current_step s3.history) "step" = some (stepSeriesOf (calls ++ [c]))
      have hs2step : lookupA (stepState s).history "step"
          = some (stepSeriesOf calls ++ [Sample.val ((s.current_step + 1 : Nat) : ℚ)]) := by
        rw [lookupA_stepState_step, hstepser]
        rfl
      have hstepnew : stepSeriesOf (calls ++ [c])
          = stepSeriesOf calls ++ (Sample.val ((calls.length + 1 : Nat) : ℚ) ::
             (match lookupA c "step" with
              | some pv => [pv.toSample]
              | none => [])) := by
        rw [stepSeriesOf, stepSeriesFrom_append, stepSeriesOf]
        simp [stepSeriesFrom]
      rw [lookupA_padHist, hlook "step", hstepnew, hs2step, stepState_current_step]
      cases hcstep : lookupA c "step" with
      | none => simp [hstep]
      | some pv => simp [hstep, List.append_assoc]
    · intro v hv
      have hl3 := hlook v
      rw [lookupA_stepState_other s v hv, stepState_current_step, hsub] at hl3
      constructor
      · intro hsupnew
        show lookupA (padHist s3.current_step s3.history) v = some (seriesOf (calls ++ [c]) v)
        rw [lookupA_padHist, hl3, seriesOf_append_one]
        cases hcv : lookupA c v with
        | some pv =>
          have hsamp : sampleAt c v = pv.toSample := by simp [sampleAt, hcv]
          by_cases hsup : suppliedIn calls v = true
          · rw [(hvars v hv).1 hsup]
            have hlen : (seriesOf calls v ++ [pv.toSample]).length = s.current_step + 1 := by
              simp [seriesOf_length, hstep]
            simp only [Option.getD_some, Option.map_some', Option.map_some]
            rw [if_neg hv, hcs, hlen]
            simp [hsamp]
          · have hsup' : suppliedIn calls v = false := by
              cases hb : suppliedIn calls v
              · rfl
              · exact absurd hb hsup
            rw [(hvars v hv).2 hsup']
            simp only [Option.getD_none, Option.map_some', Option.map_some]
            rw [if_neg hv, hcs, seriesOf_not_supplied calls v hsup', ← hstep]
            have hlen : (List.replicate s.current_step Sample.nan ++ [pv.toSample]).length
                = s.current_step + 1 := by simp
            rw [hlen]
            simp [hsamp]
        | none =>
          have hsamp : sampleAt c v = Sample.nan := by simp [sampleAt, hcv]
          have hsup : suppliedIn calls v = true := by
            rw [suppliedIn_append_one, hcv] at hsupnew
            simpa using hsupnew
          rw [(hvars v hv).1 hsup]
          simp only [Option.map_some', Option.map_some]
          rw [if_neg hv, hcs]
          have hlen : (seriesOf calls v).length = s.current_step := by
            rw [seriesOf_length, hstep]
          rw [hlen]
          simp [hsamp]
      · intro hsupnew
        show lookupA (padHist s3.current_step s3.history) v = none
        rw [suppliedIn_append_one] at hsupnew
        have h1 : suppliedIn calls v = false := by
          cases hb : suppliedIn calls v
          · rfl
          · rw [hb] at hsupnew; simp at hsupnew
        have h2 : lookupA c v = none := by
          cases hcv : lookupA c v
          · rfl
          · rw [hcv] at hsupnew; simp at hsupnew
        rw [lookupA_padHist, hl3, h2, (hvars v hv).2 h1]
        rfl

theorem runTracks_append (s : Simulation) (cs : List Call) (c : Call) :
    runTracks s (cs ++ [c]) =
      match runTracks s cs with
      | some s1 =>
        (match Simulation.track s1 c with
         | .ok s2 => some s2
         | .error _ => none)
      | none => none := by
  induction cs generalizing s with
  | nil =>
    simp only [List.nil_append, runTracks]
  | cons c0 rest ih =>
    simp only [List.cons_append, runTracks]
    cases Simulation.track s c0 with
    | ok s2 => exact ih s2
    | error e => rfl

theorem trackInv_init (name : String) : TrackInv [] (Simulation.init name) := by
  refine ⟨rfl, ?_, rfl, ?_⟩
  · simp [Simulation.init, keysOf]
  · intro v hv
    constructor
    · intro hsup
      exact absurd hsup (by simp [suppliedIn])
    · intro _
      simp [Simulation.init, lookupA, Ne.symm hv]

theorem runTracks_inv (name : String) : ∀ (calls : List Call) (s : Simulation),
    (∀ c ∈ calls, (keysOf c).Nodup) →
    runTracks (Simulation.init name) calls = some s → TrackInv calls s := by
  intro calls
  induction calls using List.reverseRecOn with
  | nil =>
    intro s _ h
    simp only [runTracks] at h
    injection h with h'
    subst h'
    exact trackInv_init name
  | append_singleton cs c ih =>
    intro s hwf h
    rw [runTracks_append] at h
    cases hr : runTracks (Simulation.init name) cs with
    | none => rw [hr] at h; exact absurd h (by simp)
    | some s1 =>
      rw [hr] at h
      have h2 : (match Simulation.track s1 c with
                 | .ok s2 => some s2
                 | .error _ => none) = some s := h
      cases ht : Simulation.track s1 c with
      | error e => rw [ht] at h2; exact absurd h2 (by simp)
      | ok s2 =>
        rw [ht] at h2
        have h3 : some s2 = some s := h2
        injection h3 with h'
        subst h'
        exact track_ok_inv cs c s1 s2
          (ih s1 (fun c' hc' => hwf c' (by simp [hc'])) hr)
          (hwf c (by simp)) ht

/-! ### Claim theorems -/

/-- Claim C5: reset returns the recorder to the freshly-constructed state
for its own name: all series and all metadata are cleared, the step series
and its default metadata are reseeded, the step counter returns to zero and
the name is untouched.  Hence reset is idempotent, and a reset recorder
followed by recording behaves exactly like a freshly constructed recorder
with the same name. -/
theorem reset_eq_fresh (s : Simulation) :
    Simulation.reset s = Simulation.init s.name
    ∧ Simulation.reset (Simulation.reset s) = Simulation.reset s
    ∧ (Simulation.reset s).name = s.name
    ∧ (Simulation.reset s).current_step = 0
    ∧ ∀ c : Call, Simulation.track (Simulation.reset s) c
        = Simulation.track (Simulation.init s.name) c :=
  ⟨rfl, rfl, rfl, rfl, fun _ => rfl⟩

/-- Claim C7: get_data returns the full stored sequence of a present
variable name, including any not-a-number fillers, and raises the NotFound
ValueError naming the variable when the name was never tracked.  The source
returns a copy of the stored list; under the value semantics of this
embedding the copy is the stored list itself, and the recorder state is
untouched because get_data is a pure function of the state. -/
theorem get_data_spec (s : Simulation) (v : String) :
    (∀ l, lookupA s.history v = some l → Simulation.get_data s v = .ok l)
    ∧ (lookupA s.history v = none →
        Simulation.get_data s v
          = .error (.valueError ("Variabele \x27" ++ v ++ "\x27 niet gevonden"))) := by
  constructor
  · intro l hl
    simp [Simulation.get_data, hl]
  · intro hl
    simp [Simulation.get_data, hl]

theorem get_data_spec_witness :
    lookupA (Simulation.init "W7").history "step" = some []
    ∧ Simulation.get_data (Simulation.init "W7") "step" = .ok []
    ∧ lookupA (Simulation.init "W7").history "x" = none
    ∧ Simulation.get_data (Simulation.init "W7") "x"
        = .error (.valueError ("Variabele \x27" ++ "x" ++ "\x27 niet gevonden")) :=
  ⟨by decide, (get_data_spec (Simulation.init "W7") "step").1 [] (by decide), by decide,
   (get_data_spec (Simulation.init "W7") "x").2 (by decide)⟩

/-- Claim C9: the derived display label equals the raw variable name when no
metadata entry exists; otherwise it is the stored label (or the raw name
when no label is stored) alone when the stored unit is empty, and
label (unit) when a non-empty unit is stored; in particular registering only
a unit derives name (unit). -/
theorem get_label_derivation (s : Simulation) (v : String) :
    (lookupA s.metadata v = none → Simulation.get_label s v = v)
    ∧ (∀ m, lookupA s.metadata v = some m → (m.unit = none ∨ m.unit = some "") →
        Simulation.get_label s v = m.label.getD v)
    ∧ (∀ m u, lookupA s.metadata v = some m → m.unit = some u → u ≠ "" →
        Simulation.get_label s v = m.label.getD v ++ " (" ++ u ++ ")")
    ∧ (∀ u, u ≠ "" → lookupA s.metadata v = none →
        Simulation.get_label (Simulation.set_metadata s v u "") v
          = v ++ " (" ++ u ++ ")") := by
  refine ⟨?_, ?_, ?_, ?_⟩
  · intro h
    simp [Simulation.get_label, h]
  · intro m hm hu
    rcases hu with hu | hu <;> simp [Simulation.get_label, hm, hu]
  · intro m u hm hu hne
    simp [Simulation.get_label, hm, hu, hne]
  · intro u hu hm
    simp [Simulation.set_metadata, Simulation.get_label, hm, hu,
      lookupA_mapValsA, lookupA_append, lookupA]

theorem get_label_derivation_witness :
    ("m" : String) ≠ ""
    ∧ lookupA (Simulation.init "W9").metadata "x" = none
    ∧ Simulation.get_label (Simulation.set_metadata (Simulation.init "W9") "x" "m" "") "x"
        = "x" ++ " (" ++ "m" ++ ")" :=
  ⟨by decide, by decide,
   (get_label_derivation (Simulation.init "W9") "x").2.2.2 "m" (by decide) (by decide)⟩

/-- The state produced by one recording call that supplies the reserved name
step with value 7 on a fresh recorder: the step series receives both the
counter value and the supplied value. -/
def stepPolluted : Simulation :=
  { name := "Simulatie"
    history := [("step", [Sample.val 1, Sample.val 7])]
    metadata := [("step", { label := some "Stappen", unit := some "" })]
    current_step := 1 }

/-- Claim C1 counterexample: a recording call may supply the reserved name
step; the step series then receives the counter value and the supplied value,
so after one completed call it has two entries while step_counter is one, and
the alignment to step_counter fails. -/
theorem track_alignment_counterexample :
    runTracks (Simulation.init "Simulatie") [[("step", PyVal.int 7)]] = some stepPolluted
    ∧ stepPolluted.current_step = 1
    ∧ lookupA stepPolluted.history "step" = some [Sample.val 1, Sample.val 7]
    ∧ ¬ ((lookupA stepPolluted.history "step").getD []).length = stepPolluted.current_step := by
  decide

/-- Claim C1 (amended): for every run of completed recording calls in which
no call supplies the reserved name step, after each call every series under
the history, the step series included, has length exactly step_counter, which
equals the number of recording calls made, regardless of which other variable
names were supplied.  A call supplying the name step instead appends an extra
entry to the step series (see the counterexample). -/
theorem track_alignment_invariant (name : String) (calls : List Call) (s : Simulation)
    (hwf : ∀ c ∈ calls, (keysOf c).Nodup)
    (hnostep : ∀ c ∈ calls, "step" ∉ keysOf c)
    (hrun : runTracks (Simulation.init name) calls = some s) :
    s.current_step = calls.length
    ∧ (lookupA s.history "step").isSome = true
    ∧ ∀ kv ∈ s.history, kv.2.length = s.current_step := by
  obtain ⟨h1, hnodup, hstepser, hvars⟩ := runTracks_inv name calls s hwf hrun
  refine ⟨h1, by rw [hstepser]; rfl, ?_⟩
  intro kv hkv
  have hl : lookupA s.history kv.1 = some kv.2 :=
    lookupA_of_mem_nodup s.history kv.1 kv.2 hnodup (by simpa using hkv)
  by_cases hk : kv.1 = "step"
  · rw [hk, hstepser] at hl
    injection hl with hl'
    have hlen : (stepSeriesOf calls).length = calls.length := by
      refine stepSeriesFrom_length calls 0 ?_
      intro c hc
      exact (lookupA_eq_none_iff c "step").mpr (hnostep c hc)
    rw [← hl', hlen, h1]
  · by_cases hsup : suppliedIn calls kv.1 = true
    · have hv := (hvars kv.1 hk).1 hsup
      rw [hv] at hl
      injection hl with hl'
      rw [← hl', seriesOf_length, h1]
    · have hsup' : suppliedIn calls kv.1 = false := by
        cases hb : suppliedIn calls kv.1
        · rfl
        · exact absurd hb hsup
      have hv := (hvars kv.1 hk).2 hsup'
      rw [hv] at hl
      exact absurd hl (by simp)

/-- The calls and final state used by the witnesses of the alignment and
series-value theorems. -/
def w1Calls : List Call := [[("a", PyVal.int 1)], [("b", PyVal.int 2)]]

def w1State : Simulation :=
  { name := "W1"
    history := [("step", [Sample.val 1, Sample.val 2]),
      ("a", [Sample.val 1, Sample.nan]), ("b", [Sample.nan, Sample.val 2])]
    metadata := [("step", { label := some "Stappen", unit := some "" })]
    current_step := 2 }

theorem track_alignment_invariant_witness :
    (∀ c ∈ w1Calls, (keysOf c).Nodup)
    ∧ (∀ c ∈ w1Calls, "step" ∉ keysOf c)
    ∧ runTracks (Simulation.init "W1") w1Calls = some w1State
    ∧ (w1State.current_step = w1Calls.length
       ∧ (lookupA w1State.history "step").isSome = true
       ∧ ∀ kv ∈ w1State.history, kv.2.length = w1State.current_step) :=
  ⟨by decide, by decide, by decide,
   track_alignment_invariant "W1" w1Calls w1State (by decide) (by decide) (by decide)⟩

/-- Claim C2 counterexample: when a call supplies the reserved name step,
the first entry of the step series is the counter value, not the float of
the supplied value, and the series is longer than the number of calls. -/
theorem track_series_values_counterexample :
    suppliedIn [[("step", PyVal.int 7)]] "step" = true
    ∧ runTracks (Simulation.init "Simulatie") [[("step", PyVal.int 7)]] = some stepPolluted
    ∧ ((lookupA stepPolluted.history "step").getD [])[0]? = some (Sample.val 1)
    ∧ (PyVal.int 7).toSample = Sample.val 7
    ∧ ¬ ((lookupA stepPolluted.history "step").getD [])[0]? = some ((PyVal.int 7).toSample)
    ∧ ¬ ((lookupA stepPolluted.history "step").getD []).length = 1 := by
  decide

/-- Claim C2 (amended): for every run of completed recording calls and every
variable name other than the reserved name step that was supplied in at
least one call, the stored series is exactly the spec series: entry i is the
float of the value supplied for the variable at call i when it was supplied
there, and the not-a-number filler otherwise, so a variable first seen at
call N is back-filled for calls 1..N-1 and an omitted variable receives a
filler at that position. -/
theorem track_series_values (name : String) (calls : List Call) (s : Simulation) (v : String)
    (hwf : ∀ c ∈ calls, (keysOf c).Nodup)
    (hrun : runTracks (Simulation.init name) calls = some s)
    (hv : v ≠ "step") (hsup : suppliedIn calls v = true) :
    lookupA s.history v = some (seriesOf calls v)
    ∧ (seriesOf calls v).length = calls.length
    ∧ ∀ i : Nat, (seriesOf calls v)[i]? = (calls[i]?).map (fun c => sampleAt c v) := by
  obtain ⟨h1, hnodup, hstepser, hvars⟩ := runTracks_inv name calls s hwf hrun
  refine ⟨(hvars v hv).1 hsup, seriesOf_length calls v, ?_⟩
  intro i
  simp [seriesOf]

theorem track_series_values_witness :
    (∀ c ∈ w1Calls, (keysOf c).Nodup)
    ∧ runTracks (Simulation.init "W1") w1Calls = some w1State
    ∧ ("a" : String) ≠ "step"
    ∧ suppliedIn w1Calls "a" = true
    ∧ (lookupA w1State.history "a" = some (seriesOf w1Calls "a")
       ∧ (seriesOf w1Calls "a").length = w1Calls.length
       ∧ ∀ i : Nat, (seriesOf w1Calls "a")[i]? = (w1Calls[i]?).map (fun c => sampleAt c "a")) :=
  ⟨by decide, by decide, by decide, by decide,
   track_series_values "W1" w1Calls w1State "a" (by decide) (by decide) (by decide) (by decide)⟩

/-- Claim C6 counterexample: the name step can itself be supplied to a
recording call, making it a previously tracked variable name; yet after
reset the query for step succeeds with the reseeded empty series instead of
raising the NotFound error. -/
theorem reset_get_data_step_counterexample :
    suppliedIn [[("step", PyVal.int 7)]] "step" = true
    ∧ runTracks (Simulation.init "Simulatie") [[("step", PyVal.int 7)]] = some stepPolluted
    ∧ Simulation.get_data (Simulation.reset stepPolluted) "step" = .ok [] := by
  decide

/-- Claim C6 (amended): after reset, querying any variable name other than
the reserved name step yields the NotFound error, in particular every
ordinary variable that was previously tracked on the recorder. -/
theorem reset_then_get_data_not_found (s : Simulation) (v : String) (hv : v ≠ "step") :
    Simulation.get_data (Simulation.reset s) v
      = .error (.valueError ("Variabele \x27" ++ v ++ "\x27 niet gevonden")) := by
  simp [Simulation.get_data, Simulation.reset, lookupA, Ne.symm hv]

/-- A state with one ordinary tracked variable, used by the reset witness. -/
def w6State : Simulation :=
  { name := "W6"
    history := [("step", [Sample.val 1]), ("x", [Sample.val 2])]
    metadata := [("step", { label := some "Stappen", unit := some "" })]
    current_step := 1 }

theorem reset_then_get_data_not_found_witness :
    ("x" : String) ≠ "step"
    ∧ Simulation.get_data (Simulation.reset w6State) "x"
        = .error (.valueError ("Variabele \x27" ++ "x" ++ "\x27 niet gevonden")) :=
  ⟨by decide, reset_then_get_data_not_found w6State "x" (by decide)⟩

/-- Claim C3: a recording call raises an error exactly when some supplied
value is non-numeric (fails the isinstance check for int and float), and the
TypeError raised at the first offending variable carries the message naming
that variable and its Python type. -/
theorem track_invalid_value (s : Simulation) (vars : Call) :
    ((∃ e, Simulation.track s vars = .error e) ↔ ∃ p ∈ vars, p.2.isNumeric = false)
    ∧ ∀ pre n v post, vars = pre ++ (n, v) :: post →
        (∀ p ∈ pre, p.2.isNumeric = true) → v.isNumeric = false →
        errMsgOf (Simulation.track s vars)
          = some (.typeError (n ++ " moet een getal zijn, niet " ++ v.typeName)) := by
  constructor
  · exact track_error_iff s vars
  · intro pre n v post hvars hall hv
    subst hvars
    obtain ⟨s2, hs2⟩ := trackVars_error_msg pre (stepState s) n v post hall hv
    rw [track_eq, hs2]
    rfl

theorem track_invalid_value_witness :
    ([("x", PyVal.str "abc" none)] : Call) = [] ++ ("x", PyVal.str "abc" none) :: []
    ∧ (∀ p ∈ ([] : Call), p.2.isNumeric = true)
    ∧ (PyVal.str "abc" none).isNumeric = false
    ∧ errMsgOf (Simulation.track (Simulation.init "W3") [("x", PyVal.str "abc" none)])
        = some (.typeError ("x" ++ " moet een getal zijn, niet "
            ++ (PyVal.str "abc" none).typeName)) :=
  ⟨rfl, by decide, by decide,
   (track_invalid_value (Simulation.init "W3") [("x", PyVal.str "abc" none)]).2
     [] "x" (PyVal.str "abc" none) [] rfl (by decide) (by decide)⟩

/-- The state after one successful recording call of a=1 on a fresh
recorder, and the state left behind when the next call fails. -/
def c10Pre : Simulation :=
  { name := "Simulatie"
    history := [("step", [Sample.val 1]), ("a", [Sample.val 1])]
    metadata := [("step", { label := some "Stappen", unit := some "" })]
    current_step := 1 }

def c10Post : Simulation :=
  { name := "Simulatie"
    history := [("step", [Sample.val 1, Sample.val 2]), ("a", [Sample.val 1])]
    metadata := [("step", { label := some "Stappen", unit := some "" })]
    current_step := 2 }

/-- Claim C10: the recording operation is not atomic on error.  When the
first non-numeric value is reached, the step counter has already been
incremented, the step series has already been extended with the new counter
value, the variables processed before the offender have already been
appended, while every variable outside the processed ones is untouched and
the padding loop has not run; concretely, after a failed call a series can
be shorter than step_counter, so the alignment invariant need not hold. -/
theorem track_not_atomic_on_error :
    (∀ (s : Simulation) (pre : Call) (n : String) (v : PyVal) (post : Call)
       (stepOld : List Sample),
      (keysOf pre).Nodup → "step" ∉ keysOf pre →
      (∀ p ∈ pre, p.2.isNumeric = true) → v.isNumeric = false →
      lookupA s.history "step" = some stepOld →
      ∃ s2, Simulation.track s (pre ++ (n, v) :: post)
          = .error (.typeError (n ++ " moet een getal zijn, niet " ++ v.typeName), s2)
        ∧ s2.current_step = s.current_step + 1
        ∧ lookupA s2.history "step"
            = some (stepOld ++ [Sample.val ((s.current_step + 1 : Nat) : ℚ)])
        ∧ (∀ k pv, (k, pv) ∈ pre → k ≠ "step" →
            lookupA s2.history k
              = some (((lookupA s.history k).getD
                  (List.replicate s.current_step Sample.nan)) ++ [pv.toSample]))
        ∧ (∀ k, k ∉ keysOf pre → k ≠ "step" → lookupA s2.history k = lookupA s.history k))
    ∧ (Simulation.track (Simulation.init "Simulatie") [("a", PyVal.int 1)] = .ok c10Pre
       ∧ Simulation.track c10Pre [("b", PyVal.noneV)]
           = .error (.typeError "b moet een getal zijn, niet <class \x27NoneType\x27>", c10Post)
       ∧ c10Post.current_step = 2
       ∧ lookupA c10Post.history "a" = some [Sample.val 1]
       ∧ ¬ ∀ kv ∈ c10Post.history, kv.2.length = c10Post.current_step) := by
  constructor
  · intro s pre n v post stepOld hnd hnstep hall hv hstepOld
    obtain ⟨s2, herr, hcs, hname, hmeta, hlook⟩ :=
      trackVars_error_char pre (stepState s) n v post hnd hall hv
    refine ⟨s2, ?_, ?_, ?_, ?_, ?_⟩
    · rw [track_eq, herr]
    · rw [hcs, stepState_current_step]
    · have hpre : lookupA pre "step" = none := (lookupA_eq_none_iff pre "step").mpr hnstep
      have h3 := hlook "step"
      simp only [hpre] at h3
      rw [lookupA_stepState_step, hstepOld] at h3
      exact h3
    · intro k pv hkpre hkstep
      have hlk : lookupA pre k = some pv := lookupA_of_mem_nodup pre k pv hnd hkpre
      have h3 := hlook k
      simp only [hlk] at h3
      rw [lookupA_stepState_other s k hkstep, stepState_current_step] at h3
      simpa using h3
    · intro k hknot hkstep
      have hlk : lookupA pre k = none := (lookupA_eq_none_iff pre k).mpr hknot
      have h3 := hlook k
      simp only [hlk] at h3
      rw [lookupA_stepState_other s k hkstep] at h3
      exact h3
  · decide

theorem track_not_atomic_on_error_witness :
    (keysOf ([("c", PyVal.int 9)] : Call)).Nodup
    ∧ "step" ∉ keysOf ([("c", PyVal.int 9)] : Call)
    ∧ (∀ p ∈ ([("c", PyVal.int 9)] : Call), p.2.isNumeric = true)
    ∧ PyVal.noneV.isNumeric = false
    ∧ lookupA c10Pre.history "step" = some [Sample.val 1]
    ∧ ∃ s2, Simulation.track c10Pre ([("c", PyVal.int 9)] ++ ("b", PyVal.noneV) :: [])
        = .error (.typeError ("b" ++ " moet een getal zijn, niet " ++ PyVal.noneV.typeName), s2)
      ∧ s2.current_step = c10Pre.current_step + 1
      ∧ lookupA s2.history "step"
          = some ([Sample.val 1] ++ [Sample.val ((c10Pre.current_step + 1 : Nat) : ℚ)])
      ∧ (∀ k pv, (k, pv) ∈ ([("c", PyVal.int 9)] : Call) → k ≠ "step" →
          lookupA s2.history k
            = some (((lookupA c10Pre.history k).getD
                (List.replicate c10Pre.current_step Sample.nan)) ++ [pv.toSample]))
      ∧ (∀ k, k ∉ keysOf ([("c", PyVal.int 9)] : Call) → k ≠ "step" →
          lookupA s2.history k = lookupA c10Pre.history k) :=
  ⟨by decide, by decide, by decide, by decide, by decide,
   track_not_atomic_on_error.1 c10Pre [("c", PyVal.int 9)] "b" PyVal.noneV []
     [Sample.val 1] (by decide) (by decide) (by decide) (by decide) (by decide)⟩

/-- The observable states after one convenience track call on the fresh
process-wide default instances: the legacy instance of the package root
module and the recorder default of core.py. -/
def c4LegacyTracked : CoachpyInit.Simulation :=
  { name := "Simulatie", history := [("a", [Sample.val 1])], metadata := [] }

def c4RecorderTracked : Simulation :=
  { name := "Simulatie"
    history := [("step", [Sample.val 1]), ("a", [Sample.val 1])]
    metadata := [("step", { label := some "Stappen", unit := some "" })]
    current_step := 1 }

/-- Claim C4 counterexample: the convenience track exported by the package
root module forwards to its legacy Simulation class, not to the recorder of
simulation.py; after one identical call on the fresh default instances the
observable query for the step series raises NotFound on the one and returns
the step series on the other, so the exported convenience function does not
behave like the recorder method of the spec. -/
theorem global_track_differs_from_recorder :
    CoachpyInit.track CoachpyInit.globalSim [("a", PyVal.int 1)] = .ok c4LegacyTracked
    ∧ Simulation.track CoachpyCore.globalSim [("a", PyVal.int 1)] = .ok c4RecorderTracked
    ∧ CoachpyInit.Simulation.get_data c4LegacyTracked "step"
        = .error (.valueError "Variabele \x27step\x27 niet gevonden")
    ∧ Simulation.get_data c4RecorderTracked "step" = .ok [Sample.val 1]
    ∧ CoachpyInit.Simulation.get_data c4LegacyTracked "step"
        ≠ Simulation.get_data c4RecorderTracked "step" := by
  decide

/-- Claim C4 (amended): the convenience functions of core.py forward
verbatim, with identical arguments, results and errors, to the recorder
instance methods applied to the process-wide default recorder; the
convenience functions actually exported by the package root module forward
instead to the distinct legacy Simulation class defined in that module,
whose recording behaviour differs from the recorder of simulation.py: its
track maintains no step series. -/
theorem core_functions_forward_verbatim :
    (∀ (g : Simulation) (vars : Call), CoachpyCore.track g vars = Simulation.track g vars)
    ∧ (∀ (g : Simulation) (varNames : List String) (against ti xl yl : Option String)
        (grid : Bool) (figsize : ℚ × ℚ) (style : String) (block : Bool)
        (kwargs : List (String × String)),
        CoachpyCore.plot g varNames against ti xl yl grid figsize style block kwargs
          = Simulation.plot g varNames against ti xl yl grid figsize style block kwargs)
    ∧ (∀ (g : Simulation) (vname unit label : String),
        CoachpyCore.set_metadata g vname unit label
          = Simulation.set_metadata g vname unit label)
    ∧ (∀ g : Simulation, CoachpyCore.reset g = Simulation.reset g)
    ∧ (CoachpyInit.track CoachpyInit.globalSim [("a", PyVal.int 1)] = .ok c4LegacyTracked
       ∧ lookupA c4LegacyTracked.history "step" = none
       ∧ Simulation.track CoachpyCore.globalSim [("a", PyVal.int 1)] = .ok c4RecorderTracked
       ∧ lookupA c4RecorderTracked.history "step" = some [Sample.val 1]) :=
  ⟨fun _ _ => rfl, fun _ _ _ _ _ _ _ _ _ _ _ => rfl, fun _ _ _ _ => rfl, fun _ => rfl,
   by decide⟩

theorem plotLoop_error : ∀ (names : List String) (s : Simulation) (xdata : List Sample)
    (style : String) (kwargs : List (String × String)) (tr0 : List PlotCall),
    (∃ w ∈ names, lookupA s.history w = none) →
    ∃ w tr, plotLoop s xdata style kwargs names tr0
        = .error (.valueError ("Variabele \x27" ++ w ++ "\x27 niet gevonden in data"), tr)
      ∧ w ∈ names ∧ lookupA s.history w = none
      ∧ ∀ pc ∈ tr, pc ∈ tr0
          ∨ ∃ u, pc.ynameOf = some u ∧ (lookupA s.history u).isSome = true := by
  intro names
  induction names with
  | nil =>
    intro s xdata style kwargs tr0 hex
    obtain ⟨w, hw, _⟩ := hex
    exact absurd hw (by simp)
  | cons v0 rest ih =>
    intro s xdata style kwargs tr0 hex
    obtain ⟨w, hw, hwn⟩ := hex
    cases hl : lookupA s.history v0 with
    | none =>
      refine ⟨v0, tr0, ?_, by simp, hl, fun pc hpc => Or.inl hpc⟩
      simp [plotLoop, hl]
    | some ydata =>
      have hwrest : w ∈ rest := by
        rcases List.mem_cons.mp hw with he | hr
        · subst he
          rw [hl] at hwn
          exact absurd hwn (by simp)
        · exact hr
      obtain ⟨w2, tr, heq, hw2, hw2n, htr⟩ :=
        ih s xdata style kwargs
          (tr0 ++ [PlotCall.series v0 xdata ydata style (s.get_label v0) kwargs])
          ⟨w, hwrest, hwn⟩
      refine ⟨w2, tr, ?_, List.mem_cons_of_mem _ hw2, hw2n, ?_⟩
      · rw [plotLoop, hl]
        exact heq
      · intro pc hpc
        rcases htr pc hpc with hin | hexu
        · rcases List.mem_append.mp hin with h0 | hs1
          · exact Or.inl h0
          · right
            have hpc2 : pc = PlotCall.series v0 xdata ydata style (s.get_label v0) kwargs := by
              simpa using hs1
            refine ⟨v0, ?_, ?_⟩
            · rw [hpc2]; rfl
            · rw [hl]; rfl
        · exact Or.inr hexu

/-- Claim C8: plot fails with the EmptyData error whenever the step series
is empty (no recording call was ever made), with no collaborator call at
all; fails with the UnknownVariable error when the requested x axis is not
among the recorded series, again before any collaborator call; and fails
with the UnknownVariable error when any requested y variable is absent,
with no collaborator series call for the absent variable. -/
theorem plot_failure_modes :
    (∀ (s : Simulation) (varNames : List String) (against ti xl yl : Option String)
       (grid : Bool) (figsize : ℚ × ℚ) (style : String) (block : Bool)
       (kwargs : List (String × String)),
      (lookupA s.history "step" = none ∨ lookupA s.history "step" = some []) →
      Simulation.plot s varNames against ti xl yl grid figsize style block kwargs
        = .error (.valueError "Geen data om te plotten. Gebruik eerst sim.track()", []))
    ∧ (∀ (s : Simulation) (varNames : List String) (against ti xl yl : Option String)
        (grid : Bool) (figsize : ℚ × ℚ) (style : String) (block : Bool)
        (kwargs : List (String × String)) (l : List Sample),
        lookupA s.history "step" = some l → l ≠ [] →
        lookupA s.history (xAxisOf against) = none →
        Simulation.plot s varNames against ti xl yl grid figsize style block kwargs
          = .error (.valueError ("Variabele \x27" ++ xAxisOf against
              ++ "\x27 niet gevonden in data"), []))
    ∧ (∀ (s : Simulation) (varNames : List String) (against ti xl yl : Option String)
        (grid : Bool) (figsize : ℚ × ℚ) (style : String) (block : Bool)
        (kwargs : List (String × String)) (l : List Sample) (v : String),
        lookupA s.history "step" = some l → l ≠ [] →
        (lookupA s.history (xAxisOf against)).isSome = true →
        v ∈ varNames → lookupA s.history v = none →
        ∃ w tr, Simulation.plot s varNames against ti xl yl grid figsize style block kwargs
            = .error (.valueError ("Variabele \x27" ++ w ++ "\x27 niet gevonden in data"), tr)
          ∧ w ∈ varNames ∧ lookupA s.history w = none
          ∧ ∀ pc ∈ tr, pc.ynameOf ≠ some v) := by
  refine ⟨?_, ?_, ?_⟩
  · intro s varNames against ti xl yl grid figsize style block kwargs hyp
    have hcond : (s.history.isEmpty
        || (match lookupA s.history "step" with
            | none => true
            | some l => l.isEmpty)) = true := by
      rcases hyp with h | h <;> simp [h]
    simp [Simulation.plot, hcond]
  · intro s varNames against ti xl yl grid figsize style block kwargs l hstep hl hx
    have hne : s.history.isEmpty = false := by
      cases hh : s.history with
      | nil => rw [hh] at hstep; exact absurd hstep (by simp [lookupA])
      | cons a t => rfl
    have hcond : (s.history.isEmpty
        || (match lookupA s.history "step" with
            | none => true
            | some l => l.isEmpty)) = false := by
      rw [hne, hstep]
      cases l with
      | nil => exact absurd rfl hl
      | cons a t => rfl
    simp [Simulation.plot, hcond, hx]
  · intro s varNames against ti xl yl grid figsize style block kwargs l v hstep hl hx hv hvn
    have hne : s.history.isEmpty = false := by
      cases hh : s.history with
      | nil => rw [hh] at hstep; exact absurd hstep (by simp [lookupA])
      | cons a t => rfl
    have hcond : (s.history.isEmpty
        || (match lookupA s.history "step" with
            | none => true
            | some l => l.isEmpty)) = false := by
      rw [hne, hstep]
      cases l with
      | nil => exact absurd rfl hl
      | cons a t => rfl
    obtain ⟨xdata, hxd⟩ := Option.isSome_iff_exists.mp hx
    have hvarsne : varNames.isEmpty = false := by
      cases varNames with
      | nil => exact absurd hv (by simp)
      | cons a t => rfl
    obtain ⟨w, tr, heq, hwmem, hwnone, htr⟩ :=
      plotLoop_error varNames s xdata style kwargs [PlotCall.figure figsize] ⟨v, hv, hvn⟩
    refine ⟨w, tr, ?_, hwmem, hwnone, ?_⟩
    · simp only [Simulation.plot, hcond, Bool.false_eq_true, if_false, hxd, hvarsne, heq]
    · intro pc hpc
      rcases htr pc hpc with h0 | ⟨u, hu, husome⟩
      · have hpc2 : pc = PlotCall.figure figsize := by simpa using h0
        rw [hpc2]
        simp [PlotCall.ynameOf]
      · rw [hu]
        intro hcontra
        injection hcontra with h'
        subst h'
        rw [hvn] at husome
        exact absurd husome (by simp)

theorem plot_failure_modes_witness :
    (lookupA (Simulation.init "W8").history "step" = none
      ∨ lookupA (Simulation.init "W8").history "step" = some [])
    ∧ Simulation.plot (Simulation.init "W8") [] none none none none true (10, 6) "-" true []
        = .error (.valueError "Geen data om te plotten. Gebruik eerst sim.track()", []) :=
  ⟨Or.inr (by decide),
   plot_failure_modes.1 (Simulation.init "W8") [] none none none none true (10, 6) "-" true []
     (Or.inr (by decide))⟩
